import Mathlib

set_option maxRecDepth 20000

/-!
# Verification of the CBIR feature/distance core

Shallow embedding of the content-based image retrieval repository
(`src/distance.cpp`, `src/features.cpp`, `src/main_query.cpp`,
`src/gui_query.cpp`, `include/utils.h`) in Lean 4.

Modelling conventions:
* C++ `float` arithmetic is embedded as exact rational arithmetic (`ℚ`);
  none of the verified claims depends on rounding behaviour.
* `std::vector<float>` becomes `List ℚ`.
* A function that can hit C++ undefined behaviour (the unguarded integer
  division by zero in `distanceMultiHistogram`) returns `Option ℚ`, with
  `none` marking exactly the undefined division; every defined C++ return
  value `x` becomes `some x` (the `-1.0f` error sentinel becomes `some (-1)`).
* `sqrtf` (used only by `distanceCosine`) is not rational, so the cosine
  metric is parametrised by the square-root function `sq`; theorems that
  need its defining property take it as a hypothesis at the needed point.
* `cv::Mat` images become a structure of dimensions, channel count and a
  pixel function returning the 0..255 channel bytes as `ℕ`.
* The OpenCV colour-space conversions `cv::cvtColor` (BGR→HSV, BGR→GRAY)
  are external library collaborators, so the extractors that call them are
  parametrised by the per-pixel conversion functions.
-/

/-! ## Distance metrics (`src/distance.cpp`) -/

/-- Embedding of `distanceSSD` (distance.cpp:73): validates equal size and
non-emptiness (returning the `-1` sentinel), then sums squared
componentwise differences. -/
def distanceSSD (feature1 feature2 : List ℚ) : ℚ :=
  if feature1.length ≠ feature2.length then -1
  else if feature1 = [] then -1
  else (List.zipWith (fun a b => (a - b) * (a - b)) feature1 feature2).sum

/-- Embedding of `distanceHistogramIntersection` (distance.cpp:122): validates equal
size and non-emptiness, then returns `1 - Σᵢ min(aᵢ, bᵢ)`. -/
def distanceHistogramIntersection (feature1 feature2 : List ℚ) : ℚ :=
  if feature1.length ≠ feature2.length then -1
  else if feature1 = [] then -1
  else 1 - (List.zipWith min feature1 feature2).sum

/-- The `h`-th contiguous slice of `histogramSize` values, as built by
`std::vector<float> hist1(feature1.begin() + startIdx, feature1.begin() + endIdx)`
in `distanceMultiHistogram` (distance.cpp:227). -/
def histSegment (feature : List ℚ) (histogramSize h : ℕ) : List ℚ :=
  (feature.drop (h * histogramSize)).take histogramSize

/-- Embedding of `distanceMultiHistogram` (distance.cpp:165).  Checks, in source
order: equal sizes, non-emptiness, and `weights.size() == numHistograms`
(each failure returns the `-1` sentinel).  The weight-sum ≈ 1 check at
distance.cpp:199 only prints a warning and does not affect the result, so
it does not appear in the embedding.  Then the C++ computes
`feature1.size() / numHistograms` and `feature1.size() % numHistograms`
with no positivity check on `numHistograms`; a zero divisor is an
unguarded integer division by zero (undefined behaviour), modelled as
`none`.  (A negative C++ `int numHistograms` always fails the
`weights.size()` comparison after `size_t` conversion, hence `ℕ` here.)
Otherwise: divisibility failure returns the sentinel, any negative
per-segment intersection distance returns the sentinel, else the
weight-as-given combination of the per-segment distances is returned. -/
def distanceMultiHistogram (feature1 feature2 : List ℚ) (numHistograms : ℕ)
    (weights : List ℚ) : Option ℚ :=
  if feature1.length ≠ feature2.length then some (-1)
  else if feature1 = [] then some (-1)
  else if weights.length ≠ numHistograms then some (-1)
  else if numHistograms = 0 then none
  else
    let histogramSize := feature1.length / numHistograms
    if feature1.length % numHistograms ≠ 0 then some (-1)
    else
      let dists := (List.range numHistograms).map (fun h =>
        distanceHistogramIntersection (histSegment feature1 histogramSize h)
          (histSegment feature2 histogramSize h))
      if dists.any (fun d => decide (d < 0)) then some (-1)
      else some ((List.zipWith (fun w d => w * d) weights dists).sum)

/-- Embedding of `distanceCosine` (distance.cpp:317), parametrised by the library
square-root function `sq`.  Validates equal sizes and non-emptiness
(`-1` sentinel), computes the dot product and the two norms, returns the
`1.0` sentinel when either norm is below `1e-10`, otherwise clamps the
cosine similarity into `[-1, 1]` and returns `1 - similarity`. -/
def distanceCosine (sq : ℚ → ℚ) (feature1 feature2 : List ℚ) : ℚ :=
  if feature1.length ≠ feature2.length then -1
  else if feature1 = [] then -1
  else
    let dotProduct := (List.zipWith (fun a b => a * b) feature1 feature2).sum
    let norm1 := sq ((feature1.map (fun a => a * a)).sum)
    let norm2 := sq ((feature2.map (fun a => a * a)).sum)
    if norm1 < 1 / 10 ^ 10 ∨ norm2 < 1 / 10 ^ 10 then 1
    else
      let cosineSimilarity := dotProduct / (norm1 * norm2)
      let clampedHigh := if cosineSimilarity > 1 then 1 else cosineSimilarity
      let clamped := if clampedHigh < -1 then -1 else clampedHigh
      1 - clamped

/-- Embedding of `distanceCustomBlueScene` (distance.cpp:385), parametrised by the
square-root function used by its cosine sub-metric.  Validates the fixed
209/512 lengths (`-1` sentinel); computes the blue-dominance difference
`|a[0] - b[0]|`, the texture slice `[1, 17)` intersection distance, the
spatial slice `[17, 209)` multi-histogram distance (3 segments, weights
`{0.33, 0.34, 0.33}`), and the DNN cosine distance; any negative
sub-distance returns the sentinel; else the `0.4/0.2/0.2/0.2` weighted
combination. -/
def distanceCustomBlueScene (sq : ℚ → ℚ)
    (customFeature1 customFeature2 dnnFeature1 dnnFeature2 : List ℚ) : Option ℚ :=
  if customFeature1.length ≠ 209 ∨ customFeature2.length ≠ 209 then some (-1)
  else if dnnFeature1.length ≠ 512 ∨ dnnFeature2.length ≠ 512 then some (-1)
  else
    let blueDist := |customFeature1.getD 0 0 - customFeature2.getD 0 0|
    let textureDist := distanceHistogramIntersection
      ((customFeature1.drop 1).take 16) ((customFeature2.drop 1).take 16)
    if textureDist < 0 then some (-1)
    else
      match distanceMultiHistogram (customFeature1.drop 17) (customFeature2.drop 17)
          3 [33/100, 34/100, 33/100] with
      | none => none
      | some spatialDist =>
        if spatialDist < 0 then some (-1)
        else
          let dnnDist := distanceCosine sq dnnFeature1 dnnFeature2
          if dnnDist < 0 then some (-1)
          else some ((2/5) * blueDist + (1/5) * textureDist +
                     (1/5) * spatialDist + (1/5) * dnnDist)

/-! ## Basic lemmas about the metrics -/

lemma distanceSSD_self (v : List ℚ) (hv : v ≠ []) : distanceSSD v v = 0 := by
  have h : (List.zipWith (fun a b : ℚ => (a - b) * (a - b)) v v).sum = 0 := by
    rw [List.zipWith_same]
    induction v with
    | nil => simp
    | cons a t ih => simp [ih]
  simp [distanceSSD, hv, h]

lemma distanceHistogramIntersection_self (v : List ℚ) (hv : v ≠ []) :
    distanceHistogramIntersection v v = 1 - v.sum := by
  have h : List.zipWith (min : ℚ → ℚ → ℚ) v v = v := by
    rw [List.zipWith_same]
    simp
  simp [distanceHistogramIntersection, hv, h]

lemma distanceCosine_self (v : List ℚ) (sq : ℚ → ℚ) (hv : v ≠ [])
    (hpos : 1 / 10 ^ 10 ≤ sq ((v.map (fun a => a * a)).sum))
    (hsq : sq ((v.map (fun a => a * a)).sum) * sq ((v.map (fun a => a * a)).sum)
      = (v.map (fun a => a * a)).sum) :
    distanceCosine sq v v = 0 := by
  have hdot : (List.zipWith (fun a b : ℚ => a * b) v v).sum
      = (v.map (fun a => a * a)).sum := by
    rw [List.zipWith_same]
  have hne : (v.map (fun a => a * a)).sum ≠ 0 := by
    intro h0
    rw [h0] at hsq hpos
    rw [mul_self_eq_zero.mp hsq] at hpos
    norm_num at hpos
  have hnlt : ¬ sq ((v.map (fun a => a * a)).sum) < 1 / 10 ^ 10 := not_lt.mpr hpos
  have hsim : (v.map (fun a => a * a)).sum /
      (sq ((v.map (fun a => a * a)).sum) * sq ((v.map (fun a => a * a)).sum)) = 1 := by
    rw [hsq]
    exact div_self hne
  simp only [distanceCosine, ne_eq, not_true_eq_false, if_false, hv, ite_false,
    lt_self_iff_false]
  rw [if_neg (by rw [or_self]; exact hnlt), hdot, hsim]
  norm_num

/-! ## Claim C2: self-distance of SSD / histogram intersection / cosine -/

/-- Claim C2 (corrected, counterexample): the claim asserts that every
metric among SSD, histogram intersection and cosine returns 0 when a
non-empty vector is compared with itself.  Histogram intersection in
fact returns `1 - Σ vᵢ` on self-comparison, which is far from 0 for
unnormalised vectors: at `v = [2]` it returns `-1`. -/
theorem histIntersection_self_not_zero :
    distanceHistogramIntersection [(2 : ℚ)] [(2 : ℚ)] = -1 ∧ (-1 : ℚ) ≠ 0 := by
  constructor
  · rw [distanceHistogramIntersection_self [(2 : ℚ)] (by decide)]
    norm_num
  · norm_num

/-- Claim C2 (amended): on self-comparison, `distanceSSD` returns exactly
0 for every non-empty vector; `distanceCosine` returns exactly 0 whenever
the computed norm is at least `1e-10` (with the square root taken exactly)
and the 1.0 sentinel whenever the norm is below `1e-10`; and
`distanceHistogramIntersection` returns `1 - Σ vᵢ`, which is 0 exactly
when the entries sum to 1 (a normalised histogram). -/
theorem metric_self_distance (v : List ℚ) (sq : ℚ → ℚ) (hv : v ≠ [])
    (hsqv : sq ((v.map (fun a => a * a)).sum) * sq ((v.map (fun a => a * a)).sum)
      = (v.map (fun a => a * a)).sum) :
    distanceSSD v v = 0 ∧
    distanceHistogramIntersection v v = 1 - v.sum ∧
    (v.sum = 1 → distanceHistogramIntersection v v = 0) ∧
    (1 / 10 ^ 10 ≤ sq ((v.map (fun a => a * a)).sum) → distanceCosine sq v v = 0) ∧
    (sq ((v.map (fun a => a * a)).sum) < 1 / 10 ^ 10 → distanceCosine sq v v = 1) := by
  refine ⟨distanceSSD_self v hv, distanceHistogramIntersection_self v hv, ?_, ?_, ?_⟩
  · intro h1
    rw [distanceHistogramIntersection_self v hv, h1, sub_self]
  · intro hpos
    exact distanceCosine_self v sq hv hpos hsqv
  · intro hlt
    simp only [distanceCosine, ne_eq, not_true_eq_false, if_false, hv, ite_false,
      lt_self_iff_false]
    rw [if_pos (by rw [or_self]; exact hlt)]

/-- Witness for `metric_self_distance` at `v = [1]` with the exact square
root of 1: all three metrics give self-distance 0. -/
theorem metric_self_distance_witness :
    distanceSSD [(1 : ℚ)] [(1 : ℚ)] = 0 ∧
    distanceHistogramIntersection [(1 : ℚ)] [(1 : ℚ)] = 0 ∧
    distanceCosine (fun _ => 1) [(1 : ℚ)] [(1 : ℚ)] = 0 := by
  have h := metric_self_distance [(1 : ℚ)] (fun _ => 1) (by decide) (by norm_num)
  exact ⟨h.1, h.2.2.1 (by norm_num), h.2.2.2.1 (by norm_num)⟩

/-! ## Claim C9: unguarded division by zero in `distanceMultiHistogram` -/

/-- Claim C9 (confirmed): `distanceMultiHistogram` computes
`feature1.size() / numHistograms` (and the matching `%`) before any
positivity check on `numHistograms`, so a call with `numHistograms = 0`
that passes the earlier shape checks (equal sizes, non-empty, empty
weight list) reaches an unguarded integer division by zero (`none` in
the embedding) and does not return the `-1` sentinel; for every
`numHistograms ≥ 1` the function is total (always returns a value). -/
theorem multiHistogram_div_by_zero_unguarded :
    (∀ f1 f2 : List ℚ, f1.length = f2.length → f1 ≠ [] →
      distanceMultiHistogram f1 f2 0 [] = none) ∧
    (∀ (f1 f2 : List ℚ) (n : ℕ) (w : List ℚ), 1 ≤ n →
      ∃ q : ℚ, distanceMultiHistogram f1 f2 n w = some q) := by
  constructor
  · intro f1 f2 h1 h2
    simp [distanceMultiHistogram, h1, h2]
  · intro f1 f2 n w hn
    unfold distanceMultiHistogram
    split
    · exact ⟨-1, rfl⟩
    · split
      · exact ⟨-1, rfl⟩
      · split
        · exact ⟨-1, rfl⟩
        · split
          · omega
          · split
            · exact ⟨-1, rfl⟩
            · dsimp only
              split
              · exact ⟨-1, rfl⟩
              · exact ⟨_, rfl⟩

/-- Witness for `multiHistogram_div_by_zero_unguarded`: the concrete call
with segment count 0 hits the undefined division, and with segment count
1 it is defined. -/
theorem multiHistogram_div_by_zero_unguarded_witness :
    distanceMultiHistogram [(1 : ℚ)] [(1 : ℚ)] 0 [] = none := by
  exact multiHistogram_div_by_zero_unguarded.1 [(1 : ℚ)] [(1 : ℚ)] rfl (by decide)

/-! ## Claim C3: error handling in `distanceMultiHistogram` -/

/-- The three behavioural cases of `distanceMultiHistogram`: mismatched
weight count errors; non-divisible length errors; valid shapes with
nonnegative per-segment distances return the weighted sum, regardless of
the weight sum. -/
lemma multiHistogram_spec :
    ∀ (f1 f2 : List ℚ) (n : ℕ) (w : List ℚ),
      (w.length ≠ n → distanceMultiHistogram f1 f2 n w = some (-1)) ∧
      (f1.length = f2.length → f1 ≠ [] → w.length = n → 1 ≤ n →
        ¬ (n ∣ f1.length) → distanceMultiHistogram f1 f2 n w = some (-1)) ∧
      (f1.length = f2.length → f1 ≠ [] → w.length = n → 1 ≤ n → n ∣ f1.length →
        (∀ h, h < n → 0 ≤ distanceHistogramIntersection
            (histSegment f1 (f1.length / n) h) (histSegment f2 (f1.length / n) h)) →
        distanceMultiHistogram f1 f2 n w =
          some ((List.zipWith (fun wgt d => wgt * d) w
            ((List.range n).map (fun h => distanceHistogramIntersection
              (histSegment f1 (f1.length / n) h)
              (histSegment f2 (f1.length / n) h)))).sum)) := by
  intro f1 f2 n w
  refine ⟨?_, ?_, ?_⟩
  · intro hw
    by_cases h1 : f1.length = f2.length
    · by_cases h2 : f1 = []
      · simp [distanceMultiHistogram, h1, h2]
      · simp [distanceMultiHistogram, h1, h2, hw]
    · simp [distanceMultiHistogram, h1]
  · intro hlen hne hw hn hdvd
    unfold distanceMultiHistogram
    rw [if_neg (by simp [hlen]), if_neg hne, if_neg (by simp [hw]),
      if_neg (by omega)]
    split
    · rfl
    · rename_i hmod
      exact absurd ((Nat.dvd_iff_mod_eq_zero.mpr :  f1.length % n = 0 → n ∣ f1.length) (not_not.mp hmod)) hdvd
  · intro hlen hne hw hn hdvd hnn
    unfold distanceMultiHistogram
    rw [if_neg (by simp [hlen]), if_neg hne, if_neg (by simp [hw]),
      if_neg (by omega)]
    split
    · rename_i hmod
      exact absurd ((Nat.dvd_iff_mod_eq_zero.mp : n ∣ f1.length → f1.length % n = 0) hdvd) hmod
    · dsimp only
      split
      · rename_i hany
        rw [List.any_eq_true] at hany
        obtain ⟨d, hd, hdlt⟩ := hany
        simp only [List.mem_map, List.mem_range] at hd
        obtain ⟨h, hh, rfl⟩ := hd
        rw [decide_eq_true_eq] at hdlt
        exact absurd hdlt (not_lt.mpr (hnn h hh))
      · rfl

/-- Claim C3 (confirmed): `distanceMultiHistogram` returns the `-1`
sentinel whenever the weight count differs from the declared segment
count, and (for a positive segment count, cf. C9) whenever the vector
length is not evenly divisible by the segment count; but a weight vector
that fails to sum to ≈1 is not an error: when the shape checks pass (and
the per-segment intersection distances are nonnegative, as they are for
normalised histograms) it returns the weighted sum of the per-segment
histogram-intersection distances with the supplied weights as given —
with no constraint whatsoever on the weight sum. -/
theorem multiHistogram_error_handling :
    ∀ (f1 f2 : List ℚ) (n : ℕ) (w : List ℚ),
      (w.length ≠ n → distanceMultiHistogram f1 f2 n w = some (-1)) ∧
      (f1.length = f2.length → f1 ≠ [] → w.length = n → 1 ≤ n →
        ¬ (n ∣ f1.length) → distanceMultiHistogram f1 f2 n w = some (-1)) ∧
      (f1.length = f2.length → f1 ≠ [] → w.length = n → 1 ≤ n → n ∣ f1.length →
        (∀ h, h < n → 0 ≤ distanceHistogramIntersection
            (histSegment f1 (f1.length / n) h) (histSegment f2 (f1.length / n) h)) →
        distanceMultiHistogram f1 f2 n w =
          some ((List.zipWith (fun wgt d => wgt * d) w
            ((List.range n).map (fun h => distanceHistogramIntersection
              (histSegment f1 (f1.length / n) h)
              (histSegment f2 (f1.length / n) h)))).sum)) :=
  multiHistogram_spec

/-- Witness for `multiHistogram_error_handling`: weights `[2, 0]` do not
sum to 1, yet the call succeeds and returns the weighted combination
`2·0 + 0·0 = 0` of the per-segment distances. -/
theorem multiHistogram_error_handling_witness :
    distanceMultiHistogram [(1 : ℚ), 1] [(1 : ℚ), 1] 2 [2, 0] = some 0 := by
  have h := (multiHistogram_error_handling [(1 : ℚ), 1] [(1 : ℚ), 1] 2 [2, 0]).2.2
    rfl (by decide) rfl (by decide) (by decide) ?_
  · rw [h]
    norm_num [histSegment, List.range_succ, distanceHistogramIntersection]
  · intro hh hlt
    interval_cases hh <;>
      norm_num [histSegment, distanceHistogramIntersection]

/-! ## Claim C7: weights `[1, 0]` over two segments -/

/-- Claim C7 (corrected, counterexample): the claim quantifies over all
equal, even, non-zero length vectors, but `distanceMultiHistogram`
treats a negative per-segment intersection distance as an error: at
`a = b = [1/2, 2]` the second segment gives `1 - min(2,2) = -1 < 0`, so
the multi-histogram call returns the `-1` sentinel while the
histogram-intersection distance of the first halves is `1/2`. -/
theorem multiHistogram_first_segment_counterexample :
    distanceMultiHistogram [(1 : ℚ)/2, 2] [(1 : ℚ)/2, 2] 2 [1, 0] = some (-1) ∧
    distanceHistogramIntersection [(1 : ℚ)/2] [(1 : ℚ)/2] = 1/2 ∧
    some (-1 : ℚ) ≠ some ((1 : ℚ)/2) := by
  refine ⟨?_, ?_, by norm_num⟩
  · norm_num [distanceMultiHistogram, distanceHistogramIntersection, histSegment,
      List.range_succ]
  · norm_num [distanceHistogramIntersection]

/-- Claim C7 (amended): for every pair of equal, even, non-zero length
vectors whose two half-segment histogram-intersection distances are
nonnegative (as for normalised histograms), `distanceMultiHistogram`
with 2 segments and weights `[1, 0]` equals the histogram-intersection
distance of the first halves alone. -/
theorem multiHistogram_first_segment_weights (a b : List ℚ)
    (hlen : a.length = b.length) (hne : a ≠ []) (heven : 2 ∣ a.length)
    (h0 : 0 ≤ distanceHistogramIntersection
      (histSegment a (a.length / 2) 0) (histSegment b (a.length / 2) 0))
    (h1 : 0 ≤ distanceHistogramIntersection
      (histSegment a (a.length / 2) 1) (histSegment b (a.length / 2) 1)) :
    distanceMultiHistogram a b 2 [1, 0] =
      some (distanceHistogramIntersection
        (a.take (a.length / 2)) (b.take (a.length / 2))) := by
  have h := (multiHistogram_spec a b 2 [1, 0]).2.2 hlen hne rfl
    (by norm_num) heven ?_
  · rw [h]
    have hseg : ∀ c : List ℚ, histSegment c (a.length / 2) 0 = c.take (a.length / 2) := by
      intro c
      simp [histSegment]
    rw [List.range_succ, List.range_succ, List.range_zero]
    simp only [List.nil_append, List.map_cons, List.map_nil, List.cons_append,
      List.zipWith_cons_cons, List.zipWith_nil_right, List.sum_cons, List.sum_nil]
    rw [hseg a, hseg b]
    ring_nf
  · intro h hlt
    interval_cases h
    · exact h0
    · exact h1

/-- Witness for `multiHistogram_first_segment_weights` at
`a = b = [1/2, 1/2]`: the result is the first-half self-distance `1/2`. -/
theorem multiHistogram_first_segment_weights_witness :
    distanceMultiHistogram [(1 : ℚ)/2, 1/2] [(1 : ℚ)/2, 1/2] 2 [1, 0] =
      some ((1 : ℚ)/2) := by
  have h := multiHistogram_first_segment_weights [(1 : ℚ)/2, 1/2] [(1 : ℚ)/2, 1/2]
    rfl (by decide) (by decide)
    (by norm_num [histSegment, distanceHistogramIntersection])
    (by norm_num [histSegment, distanceHistogramIntersection])
  rw [h]
  norm_num [distanceHistogramIntersection]

/-! ## Ranking (`include/utils.h`, `src/main_query.cpp`, `src/gui_query.cpp`) -/

/-- Embedding of `MatchResult` (utils.h:32): an image identifier with its distance
from the query. -/
structure MatchResult where
  filename : String
  distance : ℚ
deriving DecidableEq

/-- Embedding of `MatchResult::operator<` (utils.h:36): comparison by distance only. -/
def matchLt (a b : MatchResult) : Prop := a.distance < b.distance

instance : DecidableRel matchLt := fun a b =>
  inferInstanceAs (Decidable (a.distance < b.distance))

/-- The result-collection loops of `main_query.cpp` (`if (dist < 0) continue`)
and `gui_query.cpp:computeMatches` (`if (dist >= 0) results.push_back`):
from the per-entry (identifier, distance) pairs, keep exactly those whose
distance computation did not signal the negative error sentinel, in
production order. -/
def computeResults (database : List (String × ℚ)) : List MatchResult :=
  (database.filter (fun entry => !decide (entry.2 < 0))).map
    (fun entry => ⟨entry.1, entry.2⟩)

/-- Postcondition of `std::sort(results.begin(), results.end())`
(main_query.cpp:416, gui_query.cpp:211) with `MatchResult::operator<`:
the output is some permutation of the input in which no later element
compares strictly below an adjacent earlier one.  The C++ standard
guarantees nothing more — in particular not stability. -/
def IsStdSortOutput (produced sorted : List MatchResult) : Prop :=
  sorted.Perm produced ∧ sorted.Chain' (fun a b => ¬ matchLt b a)

/-- Embedding of `printTopMatches` (utils.cpp:270): displays the first
`min(topN, results.size())` entries of the sorted list. -/
def printedTopMatches (results : List MatchResult) (topN : ℕ) : List MatchResult :=
  results.take (min topN results.length)

/-! ## Claim C1: ranking is sorted, truncated — but not stably sorted -/

/-- Claim C1 (corrected, counterexample): with two produced pairs of equal
distance, the output `[img1, img0]` — which reverses the production order
`[img0, img1]` — satisfies everything `std::sort` guarantees, so the code
does not ensure that equal-distance pairs keep the relative order in
which they were produced. -/
theorem ranking_stable_sort_counterexample :
    IsStdSortOutput (computeResults [("img0", 0), ("img1", 0)])
      [⟨"img1", 0⟩, ⟨"img0", 0⟩] ∧
    computeResults [("img0", 0), ("img1", 0)] = [⟨"img0", 0⟩, ⟨"img1", 0⟩] ∧
    ([⟨"img1", 0⟩, ⟨"img0", 0⟩] : List MatchResult) ≠
      [⟨"img0", 0⟩, ⟨"img1", 0⟩] := by
  refine ⟨⟨?_, ?_⟩, rfl, by decide⟩
  · show ([⟨"img1", 0⟩, ⟨"img0", 0⟩] : List MatchResult).Perm [⟨"img0", 0⟩, ⟨"img1", 0⟩]
    exact List.Perm.swap _ _ _
  · simp [List.chain'_cons, matchLt]

/-- Claim C1 (amended): every list satisfying the `std::sort`
postcondition on the produced results is sorted in ascending (non-strict)
order of distance and is a permutation of the produced error-free pairs
(so ties may appear in either order); the displayed list is its top-N
prefix. -/
theorem ranking_sorted_output (database : List (String × ℚ))
    (results : List MatchResult) (topN : ℕ)
    (hsort : IsStdSortOutput (computeResults database) results) :
    results.Sorted (fun a b => a.distance ≤ b.distance) ∧
    results.Perm (computeResults database) ∧
    (∀ m ∈ results, 0 ≤ m.distance) ∧
    printedTopMatches results topN = results.take topN := by
  haveI : IsTrans MatchResult (fun a b => a.distance ≤ b.distance) :=
    ⟨fun _ _ _ => le_trans⟩
  refine ⟨?_, hsort.1, ?_, ?_⟩
  · have hchain : results.Chain' (fun a b => a.distance ≤ b.distance) :=
      hsort.2.imp (fun _ _ h => not_lt.mp h)
    exact List.chain'_iff_pairwise.mp hchain
  · intro m hm
    have hm2 := hsort.1.mem_iff.mp hm
    simp only [computeResults, List.mem_map, List.mem_filter, Bool.not_eq_eq_eq_not,
      Bool.not_true, decide_eq_false_iff_not, not_lt] at hm2
    obtain ⟨entry, ⟨_, hnn⟩, rfl⟩ := hm2
    exact hnn
  · unfold printedTopMatches
    rcases le_total topN results.length with hle | hle
    · rw [min_eq_left hle]
    · rw [min_eq_right hle, List.take_length, List.take_of_length_le hle]

/-- Witness for `ranking_sorted_output`: database
`[("a",1), ("b",0), ("c",-1)]` produces `[a, b]` (the erroring entry `c`
is dropped); `[b, a]` is a valid sort output, is sorted, and its top-1
display is `[b]`. -/
theorem ranking_sorted_output_witness :
    ([⟨"b", 0⟩, ⟨"a", 1⟩] : List MatchResult).Sorted
      (fun a b => a.distance ≤ b.distance) ∧
    printedTopMatches [⟨"b", 0⟩, ⟨"a", 1⟩] 1 = [⟨"b", 0⟩] := by
  have h := ranking_sorted_output [("a", 1), ("b", 0), ("c", -1)]
    [⟨"b", 0⟩, ⟨"a", 1⟩] 1 ⟨?_, ?_⟩
  · refine ⟨h.1, ?_⟩
    rw [h.2.2.2]
    rfl
  · show ([⟨"b", 0⟩, ⟨"a", 1⟩] : List MatchResult).Perm [⟨"a", 1⟩, ⟨"b", 0⟩]
    exact List.Perm.swap _ _ _
  · simp [List.chain'_cons, matchLt]

/-! ## Images and feature extractors (`src/features.cpp`)

A `cv::Mat` colour image is modelled by its dimensions, channel count
and a total pixel function `px row col channel` returning the byte value
(`unsigned char`, so a natural number; the extractors only ever read
channels 0, 1, 2 = B, G, R at in-range coordinates).  `src.empty()` holds
exactly when a dimension is zero.  Extraction functions return
`Option (List ℚ)`: `none` is the C++ `-1` error status, `some v` the
status-0 result in the output vector. -/

structure Image where
  rows : ℕ
  cols : ℕ
  channels : ℕ
  px : ℕ → ℕ → ℕ → ℕ

/-- The sub-image selected by `src(cv::Rect(0, y, src.cols, h))`. -/
def subImage (img : Image) (y h : ℕ) : Image :=
  ⟨h, img.cols, img.channels, fun i j c => img.px (y + i) j c⟩

/-- Embedding of `extractBaselineFeature` (features.cpp:54): after validating that the
image is non-empty, at least 7×7 and 3-channel, emits the 7×7 block
centred at `(rows/2, cols/2)` in row-major order, each pixel contributing
channels 0, 1, 2 in order. -/
def extractBaselineFeature (img : Image) : Option (List ℚ) :=
  if img.rows = 0 ∨ img.cols = 0 then none
  else if img.rows < 7 ∨ img.cols < 7 then none
  else if img.channels ≠ 3 then none
  else
    let centerRow := img.rows / 2
    let centerCol := img.cols / 2
    some ((List.range 7).flatMap (fun r =>
      (List.range 7).flatMap (fun c =>
        [(img.px (centerRow - 3 + r) (centerCol - 3 + c) 0 : ℚ),
         (img.px (centerRow - 3 + r) (centerCol - 3 + c) 1 : ℚ),
         (img.px (centerRow - 3 + r) (centerCol - 3 + c) 2 : ℚ)])))

/-- All pixel coordinates of an image, in the row-major order of the
nested scan loops. -/
def pixList (img : Image) : List (ℕ × ℕ) :=
  (List.range img.rows).flatMap (fun i =>
    (List.range img.cols).map (fun j => (i, j)))

/-- The per-pixel channel sum `r + g + b` (channels 2, 1, 0) used for
chromaticity normalisation.  The C++ skip test `sum < 1.0f` on a sum of
three bytes is exactly `sum = 0`. -/
def pxChannelSum (img : Image) (i j : ℕ) : ℕ :=
  img.px i j 2 + img.px i j 1 + img.px i j 0

/-- The r-chromaticity bin: `static_cast<int>((r / sum) * bins)` (float
truncation of a nonnegative exact value, i.e. `(r * bins) / sum` over ℕ)
with the boundary clamp `if (r_bin >= bins) r_bin = bins - 1`. -/
def rChromBin (img : Image) (bins : ℕ) (i j : ℕ) : ℕ :=
  let t := img.px i j 2 * bins / pxChannelSum img i j
  if bins ≤ t then bins - 1 else t

/-- The g-chromaticity bin, as `rChromBin` but for channel 1. -/
def gChromBin (img : Image) (bins : ℕ) (i j : ℕ) : ℕ :=
  let t := img.px i j 1 * bins / pxChannelSum img i j
  if bins ≤ t then bins - 1 else t

/-- The increment `histogram[r_bin][g_bin] += 1.0f`. -/
def bumpHist (hist : ℕ → ℕ → ℕ) (a b : ℕ) : ℕ → ℕ → ℕ :=
  fun x y => if x = a ∧ y = b then hist x y + 1 else hist x y

/-- One iteration of the pixel scan of
`extractRGChromaticityHistogram` (features.cpp:178): skip the pixel when
the channel sum is below 1, else increment its bin and `totalPixels`. -/
def chromStep (img : Image) (bins : ℕ) (acc : (ℕ → ℕ → ℕ) × ℕ) (p : ℕ × ℕ) :
    (ℕ → ℕ → ℕ) × ℕ :=
  if pxChannelSum img p.1 p.2 = 0 then acc
  else (bumpHist acc.1 (rChromBin img bins p.1 p.2) (gChromBin img bins p.1 p.2),
    acc.2 + 1)

/-- The bin-count table and counted-pixel total after the full scan. -/
def chromFold (img : Image) (bins : ℕ) : (ℕ → ℕ → ℕ) × ℕ :=
  (pixList img).foldl (chromStep img bins) (fun _ _ => 0, 0)

/-- Embedding of `extractRGChromaticityHistogram` (features.cpp:145): validates
non-empty and 3-channel; scans all pixels into a `bins × bins` table of
counts, counting only non-skipped pixels in `totalPixels`; divides each
bin by `totalPixels` only when it is positive; flattens row-major
(`r_bin` outer, `g_bin` inner).  The final defensive size re-check
(features.cpp:247) is provably always satisfied (see
`extractRGChromaticityHistogram_length`), so it does not appear. -/
def extractRGChromaticityHistogram (img : Image) (binsPerChannel : ℕ) :
    Option (List ℚ) :=
  if img.rows = 0 ∨ img.cols = 0 then none
  else if img.channels ≠ 3 then none
  else
    let acc := chromFold img binsPerChannel
    some ((List.range binsPerChannel).flatMap (fun rb =>
      (List.range binsPerChannel).map (fun gb =>
        if 0 < acc.2 then (acc.1 rb gb : ℚ) / acc.2 else (acc.1 rb gb : ℚ))))

/-- Number of non-skipped pixels (channel sum at least 1) — the
`totalPixels` divisor of the normalisation step. -/
def countedPixels (img : Image) : ℕ :=
  (pixList img).countP (fun p => pxChannelSum img p.1 p.2 != 0)

/-- Number of non-skipped pixels binned into `(rb, gb)`. -/
def chromBinCount (img : Image) (bins rb gb : ℕ) : ℕ :=
  (pixList img).countP (fun p => pxChannelSum img p.1 p.2 != 0 &&
    (rChromBin img bins p.1 p.2 == rb) && (gChromBin img bins p.1 p.2 == gb))

/-! ### Generic lemmas about the row-major flattening -/

lemma flatMap_range_getElem {α : Type} (m : ℕ) :
    ∀ (n : ℕ) (g : ℕ → List α) (a b : ℕ), (∀ i, (g i).length = m) →
      a < n → b < m →
      ((List.range n).flatMap g)[a * m + b]? = (g a)[b]? := by
  intro n
  induction n with
  | zero => intro g a b _ ha _; omega
  | succ n ih =>
    intro g a b hg ha hb
    rw [List.range_succ_eq_map, List.flatMap_cons, List.flatMap_map]
    match a with
    | 0 =>
      rw [Nat.zero_mul, Nat.zero_add]
      exact List.getElem?_append_left (by rw [hg 0]; exact hb)
    | a + 1 =>
      have hidx : (a + 1) * m + b = (g 0).length + (a * m + b) := by
        rw [hg 0]; ring
      rw [hidx, List.getElem?_append_right (by omega), Nat.add_sub_cancel_left]
      exact ih (fun i => g (i + 1)) a b (fun i => hg (i + 1)) (by omega) hb

lemma flatMap_range_length {α : Type} (g : ℕ → List α) (m n : ℕ)
    (hm : ∀ i, (g i).length = m) :
    ((List.range n).flatMap g).length = n * m := by
  rw [List.length_flatMap]
  have : (List.range n).map (List.length ∘ g) = List.replicate n m := by
    rw [List.eq_replicate_iff]
    constructor
    · simp
    · intro b hb
      simp only [List.mem_map, List.mem_range, Function.comp] at hb
      obtain ⟨i, _, rfl⟩ := hb
      exact hm i
  rw [this, List.sum_replicate, smul_eq_mul]

lemma flatMap_range_const {α : Type} (n m : ℕ) (x : α) :
    (List.range n).flatMap (fun _ => (List.range m).map (fun _ => x)) =
      List.replicate (n * m) x := by
  rw [List.eq_replicate_iff]
  constructor
  · exact flatMap_range_length _ m n (fun i => by simp)
  · intro b hb
    simp only [List.mem_flatMap, List.mem_map, List.mem_range] at hb
    obtain ⟨_, _, _, _, rfl⟩ := hb
    rfl

/-! ### The pixel scan computes bin counts and the counted-pixel total -/

lemma chromFold_go (img : Image) (bins : ℕ) :
    ∀ (l : List (ℕ × ℕ)) (hist : ℕ → ℕ → ℕ) (t : ℕ),
      (l.foldl (chromStep img bins) (hist, t)).2 =
        t + l.countP (fun p => pxChannelSum img p.1 p.2 != 0) ∧
      ∀ x y, (l.foldl (chromStep img bins) (hist, t)).1 x y =
        hist x y + l.countP (fun p => pxChannelSum img p.1 p.2 != 0 &&
          (rChromBin img bins p.1 p.2 == x) && (gChromBin img bins p.1 p.2 == y)) := by
  intro l
  induction l with
  | nil => intro hist t; simp
  | cons p l ih =>
    intro hist t
    rw [List.foldl_cons]
    by_cases hs : pxChannelSum img p.1 p.2 = 0
    · have hstep : chromStep img bins (hist, t) p = (hist, t) := by
        simp [chromStep, hs]
      rw [hstep]
      constructor
      · rw [(ih hist t).1, List.countP_cons]
        simp [hs]
      · intro x y
        rw [(ih hist t).2 x y, List.countP_cons]
        simp [hs]
    · have hstep : chromStep img bins (hist, t) p =
          (bumpHist hist (rChromBin img bins p.1 p.2) (gChromBin img bins p.1 p.2),
            t + 1) := by
        simp [chromStep, hs]
      rw [hstep]
      constructor
      · rw [(ih _ _).1, List.countP_cons]
        simp [hs]
        omega
      · intro x y
        rw [(ih _ _).2 x y, List.countP_cons]
        by_cases hxy : x = rChromBin img bins p.1 p.2 ∧ y = gChromBin img bins p.1 p.2
        · obtain ⟨hx, hy⟩ := hxy
          subst hx
          subst hy
          simp [bumpHist, hs]
          omega
        · have hb : bumpHist hist (rChromBin img bins p.1 p.2)
              (gChromBin img bins p.1 p.2) x y = hist x y := by
            simp only [bumpHist, if_neg hxy]
          rw [hb]
          have hp : ((pxChannelSum img p.1 p.2 != 0) &&
              (rChromBin img bins p.1 p.2 == x) &&
              (gChromBin img bins p.1 p.2 == y)) = false := by
            by_cases h1 : rChromBin img bins p.1 p.2 = x
            · by_cases h2 : gChromBin img bins p.1 p.2 = y
              · exact absurd ⟨h1.symm, h2.symm⟩ hxy
              · simp [h2]
            · simp [h1]
          rw [hp]
          simp

lemma chromFold_eq (img : Image) (bins : ℕ) :
    (chromFold img bins).2 = countedPixels img ∧
    ∀ x y, (chromFold img bins).1 x y = chromBinCount img bins x y := by
  have h := chromFold_go img bins (pixList img) (fun _ _ => 0) 0
  exact ⟨by simpa [countedPixels, chromFold] using h.1,
    fun x y => by simpa [chromBinCount, chromFold] using h.2 x y⟩

lemma extractRGChromaticityHistogram_eq (img : Image) (bins : ℕ)
    (hr : img.rows ≠ 0) (hc : img.cols ≠ 0) (hch : img.channels = 3) :
    extractRGChromaticityHistogram img bins =
      some ((List.range bins).flatMap (fun rb => (List.range bins).map (fun gb =>
        if 0 < countedPixels img
        then (chromBinCount img bins rb gb : ℚ) / countedPixels img
        else (chromBinCount img bins rb gb : ℚ)))) := by
  unfold extractRGChromaticityHistogram
  rw [if_neg (by simp [hr, hc]), if_neg (by simp [hch])]
  simp only [(chromFold_eq img bins).1, (chromFold_eq img bins).2]

lemma extractRGChromaticityHistogram_none_iff (img : Image) (bins : ℕ) :
    extractRGChromaticityHistogram img bins = none ↔
      (img.rows = 0 ∨ img.cols = 0 ∨ img.channels ≠ 3) := by
  unfold extractRGChromaticityHistogram
  split
  · rename_i h
    exact iff_of_true rfl (by tauto)
  · split
    · rename_i h1 h2
      exact iff_of_true rfl (by tauto)
    · rename_i h1 h2
      exact iff_of_false (by simp) (by tauto)

lemma extractRGChromaticityHistogram_length (img : Image) (bins : ℕ)
    (hr : img.rows ≠ 0) (hc : img.cols ≠ 0) (hch : img.channels = 3) :
    ∃ l, extractRGChromaticityHistogram img bins = some l ∧
      l.length = bins * bins := by
  refine ⟨_, extractRGChromaticityHistogram_eq img bins hr hc hch, ?_⟩
  exact flatMap_range_length _ bins bins (fun i => by simp)

/-! ## Claim C5: the centre-patch extractor -/

/-- Claim C5 (confirmed): `extractBaselineFeature` errors exactly when
the image is empty, smaller than 7×7, or not 3-channel; on every other
image it returns a 147-value vector whose entry at `21r + 3c + ch`
(`r, c < 7`, `ch < 3`) is the channel-`ch` byte of the pixel at row
`rows/2 - 3 + r`, column `cols/2 - 3 + c` — the 7×7 block centred at
`(rows/2, cols/2)` in row-major order with channels 0,1,2 per pixel. -/
theorem baseline_center_patch (img : Image) :
    (extractBaselineFeature img = none ↔
      (img.rows = 0 ∨ img.cols = 0) ∨ img.rows < 7 ∨ img.cols < 7 ∨
        img.channels ≠ 3) ∧
    (∀ l, extractBaselineFeature img = some l →
      l.length = 147 ∧
      ∀ r c ch, r < 7 → c < 7 → ch < 3 →
        l[21 * r + 3 * c + ch]? =
          some ((img.px (img.rows / 2 - 3 + r) (img.cols / 2 - 3 + c) ch : ℚ))) := by
  constructor
  · unfold extractBaselineFeature
    split
    · rename_i h
      exact iff_of_true rfl (by tauto)
    · split
      · rename_i h1 h
        exact iff_of_true rfl (by tauto)
      · split
        · rename_i h1 h2 h
          exact iff_of_true rfl (by tauto)
        · rename_i h1 h2 h3
          exact iff_of_false (by simp) (by tauto)
  · intro l hl
    unfold extractBaselineFeature at hl
    by_cases h1 : img.rows = 0 ∨ img.cols = 0
    · rw [if_pos h1] at hl
      exact absurd hl (by simp)
    rw [if_neg h1] at hl
    by_cases h2 : img.rows < 7 ∨ img.cols < 7
    · rw [if_pos h2] at hl
      exact absurd hl (by simp)
    rw [if_neg h2] at hl
    by_cases h3 : img.channels ≠ 3
    · rw [if_pos h3] at hl
      exact absurd hl (by simp)
    rw [if_neg h3] at hl
    dsimp only at hl
    have hl2 := Option.some.inj hl
    subst hl2
    have hblock : ∀ r, ((List.range 7).flatMap (fun c =>
        [(img.px (img.rows / 2 - 3 + r) (img.cols / 2 - 3 + c) 0 : ℚ),
         (img.px (img.rows / 2 - 3 + r) (img.cols / 2 - 3 + c) 1 : ℚ),
         (img.px (img.rows / 2 - 3 + r) (img.cols / 2 - 3 + c) 2 : ℚ)])).length
        = 21 := by
      intro r
      exact flatMap_range_length _ 3 7 (fun c => by simp)
    constructor
    · exact flatMap_range_length _ 21 7 hblock
    · intro r c ch hr hc hch
      have hidx : 21 * r + 3 * c + ch = r * 21 + (c * 3 + ch) := by ring
      rw [hidx, flatMap_range_getElem 21 7 _ r (c * 3 + ch) hblock hr (by omega)]
      have hidx2 : c * 3 + ch = c * 3 + ch := rfl
      rw [flatMap_range_getElem 3 7 _ c ch (fun c => by simp) hc hch]
      interval_cases ch <;> rfl

/-- A concrete 7×7 3-channel image for the C5 witness. -/
def baselineWitnessImage : Image := ⟨7, 7, 3, fun i j ch => 100 * i + 10 * j + ch⟩

/-- Witness for `baseline_center_patch`: on the 7×7 witness image the
extraction succeeds and entry `21·1 + 3·1 + 0 = 24` is the channel-0
byte of pixel `(1, 1)`, namely 110. -/
theorem baseline_center_patch_witness :
    extractBaselineFeature baselineWitnessImage ≠ none ∧
    ((extractBaselineFeature baselineWitnessImage).getD [])[24]? =
      some ((110 : ℕ) : ℚ) := by
  have h := baseline_center_patch baselineWitnessImage
  have hne : extractBaselineFeature baselineWitnessImage ≠ none := by
    intro hn
    have := h.1.mp hn
    simp [baselineWitnessImage] at this
  refine ⟨hne, ?_⟩
  obtain ⟨l, hl⟩ := Option.ne_none_iff_exists'.mp hne
  rw [hl]
  have hidx := (h.2 l hl).2 1 1 0 (by omega) (by omega) (by omega)
  simp only [baselineWitnessImage] at hidx
  norm_num at hidx
  simpa using hidx

/-! ## Claims C6 and C8: chromaticity histogram normalisation -/

lemma mem_pixList (img : Image) (p : ℕ × ℕ) :
    p ∈ pixList img ↔ p.1 < img.rows ∧ p.2 < img.cols := by
  cases p with
  | mk i j =>
    simp only [pixList, List.mem_flatMap, List.mem_map, List.mem_range]
    constructor
    · rintro ⟨a, ha, b, hb, hab⟩
      cases hab
      exact ⟨ha, hb⟩
    · rintro ⟨hi, hj⟩
      exact ⟨i, hi, j, hj, rfl⟩

lemma pixList_length (img : Image) :
    (pixList img).length = img.rows * img.cols :=
  flatMap_range_length _ img.cols img.rows (fun i => by simp)

lemma chromHistogram_getElem (img : Image) (bins : ℕ)
    (hr : img.rows ≠ 0) (hc : img.cols ≠ 0) (hch : img.channels = 3)
    (rb gb : ℕ) (hrb : rb < bins) (hgb : gb < bins) :
    ∀ l, extractRGChromaticityHistogram img bins = some l →
      l[rb * bins + gb]? = some (if 0 < countedPixels img
        then (chromBinCount img bins rb gb : ℚ) / countedPixels img
        else (chromBinCount img bins rb gb : ℚ)) := by
  intro l hl
  rw [extractRGChromaticityHistogram_eq img bins hr hc hch] at hl
  have hl2 := Option.some.inj hl
  subst hl2
  rw [flatMap_range_getElem bins bins _ rb gb (fun i => by simp) hrb hgb]
  simp [List.getElem?_range hgb]

/-- On a valid image whose every pixel has channel sum 0, the
chromaticity histogram is the all-zero vector (no division occurs). -/
lemma chromHistogram_all_black (img : Image) (bins : ℕ)
    (hr : img.rows ≠ 0) (hc : img.cols ≠ 0) (hch : img.channels = 3)
    (hblack : ∀ i j, i < img.rows → j < img.cols → pxChannelSum img i j = 0) :
    extractRGChromaticityHistogram img bins =
      some (List.replicate (bins * bins) (0 : ℚ)) := by
  rw [extractRGChromaticityHistogram_eq img bins hr hc hch]
  have hcount : countedPixels img = 0 := by
    rw [countedPixels, List.countP_eq_zero]
    intro p hp
    obtain ⟨hi, hj⟩ := (mem_pixList img p).mp hp
    simp [hblack p.1 p.2 hi hj]
  have hbin : ∀ rb gb, chromBinCount img bins rb gb = 0 := by
    intro rb gb
    rw [chromBinCount, List.countP_eq_zero]
    intro p hp
    obtain ⟨hi, hj⟩ := (mem_pixList img p).mp hp
    simp [hblack p.1 p.2 hi hj]
  congr 1
  rw [List.eq_replicate_iff]
  refine ⟨flatMap_range_length _ bins bins (fun i => by simp), ?_⟩
  intro q hq
  simp only [List.mem_flatMap, List.mem_map, List.mem_range] at hq
  obtain ⟨rb, _, gb, _, rfl⟩ := hq
  simp [hcount, hbin]

/-- Claim C6 (confirmed): for every non-empty 3-channel image, the
chromaticity histogram succeeds and every bin equals its non-skipped
count divided by `countedPixels` — the number of pixels with channel sum
at least 1, not the total pixel count — with the division only performed
when that count is positive; and if every pixel has channel sum below 1,
the result is the all-zero vector of length `binsPerChannel²`. -/
theorem chromHistogram_normalization (img : Image) (bins : ℕ)
    (hr : img.rows ≠ 0) (hc : img.cols ≠ 0) (hch : img.channels = 3) :
    (∃ l, extractRGChromaticityHistogram img bins = some l ∧
      l.length = bins * bins ∧
      ∀ rb gb, rb < bins → gb < bins →
        l[rb * bins + gb]? = some (if 0 < countedPixels img
          then (chromBinCount img bins rb gb : ℚ) / countedPixels img
          else (chromBinCount img bins rb gb : ℚ))) ∧
    ((∀ i j, i < img.rows → j < img.cols → pxChannelSum img i j = 0) →
      extractRGChromaticityHistogram img bins =
        some (List.replicate (bins * bins) (0 : ℚ))) := by
  constructor
  · obtain ⟨l, hl, hlen⟩ := extractRGChromaticityHistogram_length img bins hr hc hch
    exact ⟨l, hl, hlen, fun rb gb hrb hgb =>
      chromHistogram_getElem img bins hr hc hch rb gb hrb hgb l hl⟩
  · intro hblack
    exact chromHistogram_all_black img bins hr hc hch hblack

/-- A 1×1 all-black 3-channel image for the C6 witness. -/
def blackWitnessImage : Image := ⟨1, 1, 3, fun _ _ _ => 0⟩

/-- Witness for `chromHistogram_normalization`: the all-black image has
zero counted pixels, and the 2-bin histogram is the all-zero vector of
length 4 — no division is attempted. -/
theorem chromHistogram_normalization_witness :
    extractRGChromaticityHistogram blackWitnessImage 2 =
      some (List.replicate 4 (0 : ℚ)) := by
  exact (chromHistogram_normalization blackWitnessImage 2
    (by decide) (by decide) rfl).2 (fun i j _ _ => rfl)

/-- Claim C8 counterexample (for the claim as stated): the 1×1 all-black
image has every pixel of the identical colour (0,0,0), yet its 16-bin
chromaticity histogram is identically zero — no bin holds 1.0. -/
theorem chromHistogram_uniform_counterexample :
    extractRGChromaticityHistogram blackWitnessImage 16 =
      some (List.replicate 256 (0 : ℚ)) ∧
    (1 : ℚ) ∉ List.replicate 256 (0 : ℚ) := by
  constructor
  · exact chromHistogram_all_black blackWitnessImage 16
      (by decide) (by decide) rfl (fun i j _ _ => rfl)
  · exact fun hmem => absurd (List.eq_of_mem_replicate hmem) one_ne_zero

/-- Claim C8 (amended): for every non-empty 3-channel image whose pixels
all carry one identical colour `(r, g, b)` with channel sum at least 1
(not near-black), and any positive bin count, the chromaticity histogram
has a single bin of value exactly 1 and every other bin 0. -/
theorem chromHistogram_uniform_image (img : Image) (bins : ℕ) (r g b : ℕ)
    (hbins : 1 ≤ bins) (hr : img.rows ≠ 0) (hc : img.cols ≠ 0)
    (hch : img.channels = 3)
    (huni : ∀ i j, i < img.rows → j < img.cols →
      img.px i j 2 = r ∧ img.px i j 1 = g ∧ img.px i j 0 = b)
    (hsum : 1 ≤ r + g + b) :
    ∃ l k, extractRGChromaticityHistogram img bins = some l ∧ k < bins * bins ∧
      l[k]? = some (1 : ℚ) ∧
      ∀ k', k' < bins * bins → k' ≠ k → l[k']? = some (0 : ℚ) := by
  obtain ⟨l, hl, hlen⟩ := extractRGChromaticityHistogram_length img bins hr hc hch
  have hs0 : r + g + b ≠ 0 := by omega
  have hrb0lt : (if bins ≤ r * bins / (r + g + b) then bins - 1
      else r * bins / (r + g + b)) < bins := by
    split
    · omega
    · rename_i h
      exact not_le.mp h
  have hgb0lt : (if bins ≤ g * bins / (r + g + b) then bins - 1
      else g * bins / (r + g + b)) < bins := by
    split
    · omega
    · rename_i h
      exact not_le.mp h
  set rb0 := if bins ≤ r * bins / (r + g + b) then bins - 1
    else r * bins / (r + g + b) with hrb0
  set gb0 := if bins ≤ g * bins / (r + g + b) then bins - 1
    else g * bins / (r + g + b) with hgb0
  have hpx : ∀ p : ℕ × ℕ, p ∈ pixList img →
      pxChannelSum img p.1 p.2 = r + g + b ∧
      rChromBin img bins p.1 p.2 = rb0 ∧ gChromBin img bins p.1 p.2 = gb0 := by
    intro p hp
    obtain ⟨hi, hj⟩ := (mem_pixList img p).mp hp
    obtain ⟨h2, h1, h0⟩ := huni p.1 p.2 hi hj
    have hsump : pxChannelSum img p.1 p.2 = r + g + b := by
      rw [pxChannelSum, h2, h1, h0]
    refine ⟨hsump, ?_, ?_⟩
    · rw [rChromBin, hsump, h2]
    · rw [gChromBin, hsump, h1]
  have hN : img.rows * img.cols ≠ 0 := by
    rcases Nat.eq_zero_or_pos img.rows with h | h
    · exact absurd h hr
    rcases Nat.eq_zero_or_pos img.cols with h' | h'
    · exact absurd h' hc
    positivity
  have hcounted : countedPixels img = img.rows * img.cols := by
    rw [countedPixels, ← pixList_length img]
    apply List.countP_eq_length.mpr
    intro p hp
    simp [bne_iff_ne, (hpx p hp).1]
    omega
  have hbin0 : chromBinCount img bins rb0 gb0 = img.rows * img.cols := by
    rw [chromBinCount, ← pixList_length img]
    apply List.countP_eq_length.mpr
    intro p hp
    obtain ⟨ha, hb, hcc⟩ := hpx p hp
    simp [bne_iff_ne, ha, hb, hcc]
    omega
  have hbinother : ∀ rb gb, ¬(rb = rb0 ∧ gb = gb0) →
      chromBinCount img bins rb gb = 0 := by
    intro rb gb hne
    rw [chromBinCount, List.countP_eq_zero]
    intro p hp
    obtain ⟨ha, hb, hcc⟩ := hpx p hp
    simp only [ha, hb, hcc, Bool.and_eq_true, bne_iff_ne, ne_eq, beq_iff_eq]
    rintro ⟨⟨_, h1⟩, h2⟩
    exact hne ⟨h1.symm, h2.symm⟩
  refine ⟨l, rb0 * bins + gb0, hl, ?_, ?_, ?_⟩
  · calc rb0 * bins + gb0 < rb0 * bins + bins := by omega
    _ = (rb0 + 1) * bins := by ring
    _ ≤ bins * bins := by
        apply Nat.mul_le_mul_right
        omega
  · rw [chromHistogram_getElem img bins hr hc hch rb0 gb0 hrb0lt hgb0lt l hl]
    rw [hcounted, hbin0, if_pos (by omega)]
    congr 1
    exact div_self (by exact_mod_cast hN)
  · intro k' hk' hkne
    have hdecomp : k' = (k' / bins) * bins + k' % bins :=
      (Nat.div_add_mod' k' bins).symm
    have hrb' : k' / bins < bins := Nat.div_lt_of_lt_mul (by omega)
    have hgb' : k' % bins < bins := Nat.mod_lt _ (by omega)
    have hne2 : ¬(k' / bins = rb0 ∧ k' % bins = gb0) := by
      rintro ⟨h1, h2⟩
      exact hkne (by rw [hdecomp, h1, h2])
    rw [hdecomp,
      chromHistogram_getElem img bins hr hc hch _ _ hrb' hgb' l hl,
      hbinother _ _ hne2]
    simp

/-- A 1×1 pure-red 3-channel image for the C8 witness. -/
def redWitnessImage : Image := ⟨1, 1, 3, fun _ _ c => if c = 2 then 255 else 0⟩

/-- Witness for `chromHistogram_uniform_image`: the uniform pure-red
image yields, for 2 bins per channel, a histogram that succeeds and
contains the value 1 (one bin holds all the mass). -/
theorem chromHistogram_uniform_image_witness :
    extractRGChromaticityHistogram redWitnessImage 2 ≠ none ∧
    (1 : ℚ) ∈ (extractRGChromaticityHistogram redWitnessImage 2).getD [] := by
  obtain ⟨l, k, hl, hk, h1, h0⟩ := chromHistogram_uniform_image redWitnessImage 2
    255 0 0 (by omega) (by decide) (by decide) rfl
    (by intro i j hi hj; exact ⟨rfl, rfl, rfl⟩) (by omega)
  rw [hl]
  refine ⟨by simp, ?_⟩
  obtain ⟨hn, hv⟩ := List.getElem?_eq_some_iff.mp h1
  rw [Option.getD_some]
  exact hv ▸ List.getElem_mem hn

/-! ## Split-region and custom extractors (`src/features.cpp`) -/

/-- Embedding of `extractMultiHistogram` (features.cpp:260): validates non-empty and
3-channel, splits at `midRow = rows / 2` into the top half (rows
`[0, midRow)`) and the bottom half (rows `[midRow, rows)`), runs the
chromaticity extractor on each and concatenates top then bottom,
propagating any sub-extraction error.  The final defensive size re-check
(features.cpp:325) is provably always satisfied on the success path, so
it does not appear. -/
def extractMultiHistogram (img : Image) (binsPerChannel : ℕ) : Option (List ℚ) :=
  if img.rows = 0 ∨ img.cols = 0 then none
  else if img.channels ≠ 3 then none
  else
    let midRow := img.rows / 2
    match extractRGChromaticityHistogram (subImage img 0 midRow) binsPerChannel with
    | none => none
    | some topHistogram =>
      match extractRGChromaticityHistogram (subImage img midRow (img.rows - midRow))
          binsPerChannel with
      | none => none
      | some bottomHistogram => some (topHistogram ++ bottomHistogram)

/-- The vertical-smoothing pass of `sobelX3x3` (features.cpp:354):
kernel `[1,2,1]` down each column, divided by 4; boundary rows (0 and
rows−1) are copied from the source. -/
def sobelXtemp (img : Image) (i j c : ℕ) : ℕ :=
  if i = 0 ∨ i = img.rows - 1 then img.px i j c
  else (img.px (i - 1) j c + 2 * img.px i j c + img.px (i + 1) j c) / 4

/-- Embedding of `sobelX3x3` (features.cpp:354): horizontal gradient `[-1,0,1]` of the
smoothed image (`temp[j+1] - temp[j-1]`), zero on boundary columns. -/
def sobelX3x3 (img : Image) (i j c : ℕ) : ℤ :=
  if j = 0 ∨ j = img.cols - 1 then 0
  else (sobelXtemp img i (j + 1) c : ℤ) - (sobelXtemp img i (j - 1) c : ℤ)

/-- The horizontal-smoothing pass of `sobelY3x3` (features.cpp:452):
kernel `[1,2,1]` along each row, divided by 4; boundary columns copied. -/
def sobelYtemp (img : Image) (i j c : ℕ) : ℕ :=
  if j = 0 ∨ j = img.cols - 1 then img.px i j c
  else (img.px i (j - 1) c + 2 * img.px i j c + img.px i (j + 1) c) / 4

/-- Embedding of `sobelY3x3` (features.cpp:452): vertical gradient `[1,0,-1]` of the
smoothed image (`temp[i-1] - temp[i+1]`, positive up), zero on boundary
rows. -/
def sobelY3x3 (img : Image) (i j c : ℕ) : ℤ :=
  if i = 0 ∨ i = img.rows - 1 then 0
  else (sobelYtemp img (i - 1) j c : ℤ) - (sobelYtemp img (i + 1) j c : ℤ)

/-- Embedding of `magnitude` (features.cpp:548): per-channel Euclidean magnitude
`sqrt(gx² + gy²)` truncated to an integer and clamped to 255.  (Its
size/type validation can never fail in these call sites because both
gradients are built over the same image.) -/
def gradientMagnitude (img : Image) (i j c : ℕ) : ℕ :=
  min (Nat.sqrt ((sobelX3x3 img i j c).natAbs ^ 2 +
    (sobelY3x3 img i j c).natAbs ^ 2)) 255

/-- The gray value of the magnitude image:
`cv::cvtColor(mag, magGray, COLOR_BGR2GRAY)` is an external OpenCV
collaborator, abstracted as the per-pixel function `grayOf b g r`. -/
def gradientGray (grayOf : ℕ → ℕ → ℕ → ℕ) (img : Image) (i j : ℕ) : ℕ :=
  grayOf (gradientMagnitude img i j 0) (gradientMagnitude img i j 1)
    (gradientMagnitude img i j 2)

/-- The binning step `int bin = (value * bins) / 256` with the defensive clamp
(features.cpp:646). -/
def gradientBin (grayOf : ℕ → ℕ → ℕ → ℕ) (img : Image) (bins i j : ℕ) : ℕ :=
  let binv := gradientGray grayOf img i j * bins / 256
  if bins ≤ binv then bins - 1 else binv

/-- Embedding of `extractGradientMagnitudeHistogram` (features.cpp:594): histogram of
the per-pixel gradient-magnitude gray values over `bins` equal buckets,
normalised by the total pixel count (every pixel is counted; the
division is guarded by `totalPixels > 0`).  Its C++ error paths (Sobel
and magnitude failures) are unreachable, so the embedding is total. -/
def extractGradientMagnitudeHistogram (grayOf : ℕ → ℕ → ℕ → ℕ) (img : Image)
    (bins : ℕ) : List ℚ :=
  let total := img.rows * img.cols
  (List.range bins).map (fun k =>
    let cnt := (pixList img).countP
      (fun p => gradientBin grayOf img bins p.1 p.2 == k)
    if 0 < total then (cnt : ℚ) / total else (cnt : ℚ))

/-- Embedding of `calculateBlueDominance` (features.cpp:742): returns 0 on an empty or
non-3-channel image; otherwise counts pixels whose HSV triple (computed
by the external `cv::cvtColor(..., COLOR_BGR2HSV)`, abstracted as
`hsvOf b g r = (h, s, v)`) satisfies `100 ≤ h ≤ 130`, `s > 30`, `v > 50`,
divided by the total pixel count. -/
def calculateBlueDominance (hsvOf : ℕ → ℕ → ℕ → ℕ × ℕ × ℕ) (img : Image) : ℚ :=
  if img.rows = 0 ∨ img.cols = 0 ∨ img.channels ≠ 3 then 0
  else
    let bluePixels := (pixList img).countP (fun p =>
      let hsv := hsvOf (img.px p.1 p.2 0) (img.px p.1 p.2 1) (img.px p.1 p.2 2)
      decide (100 ≤ hsv.1) && decide (hsv.1 ≤ 130) &&
        decide (30 < hsv.2.1) && decide (50 < hsv.2.2))
    (bluePixels : ℚ) / ((img.rows * img.cols : ℕ) : ℚ)

/-- Embedding of `extractCustomBlueSceneFeature` (features.cpp:786): validates
non-empty and 3-channel; concatenates the blue-dominance scalar, the
16-bin gradient-texture histogram, and three 8-bin chromaticity
histograms over the bands `[0, rows/3)`, `[rows/3, 2·rows/3)` and
`[2·rows/3, rows)`, propagating any sub-extraction error.  The final
209-size re-check (features.cpp:864) is provably always satisfied on the
success path, so it does not appear. -/
def extractCustomBlueSceneFeature (hsvOf : ℕ → ℕ → ℕ → ℕ × ℕ × ℕ)
    (grayOf : ℕ → ℕ → ℕ → ℕ) (img : Image) : Option (List ℚ) :=
  if img.rows = 0 ∨ img.cols = 0 then none
  else if img.channels ≠ 3 then none
  else
    let blueDominance := calculateBlueDominance hsvOf img
    let textureFeature := extractGradientMagnitudeHistogram grayOf img 16
    let regionHeight := img.rows / 3
    match extractRGChromaticityHistogram (subImage img 0 regionHeight) 8 with
    | none => none
    | some topHist =>
      match extractRGChromaticityHistogram
          (subImage img regionHeight regionHeight) 8 with
      | none => none
      | some middleHist =>
        match extractRGChromaticityHistogram
            (subImage img (2 * regionHeight) (img.rows - 2 * regionHeight)) 8 with
        | none => none
        | some bottomHist =>
          some (blueDominance ::
            (textureFeature ++ topHist ++ middleHist ++ bottomHist))

lemma extractGradientMagnitudeHistogram_length (grayOf : ℕ → ℕ → ℕ → ℕ)
    (img : Image) (bins : ℕ) :
    (extractGradientMagnitudeHistogram grayOf img bins).length = bins := by
  simp [extractGradientMagnitudeHistogram]

/-! ## Claim C10: minimum image heights of the band-splitting extractors -/

/-- Claim C10 (confirmed): `extractMultiHistogram` errors on every image
with fewer than 2 rows (the top half `rows/2` is zero rows tall and the
chromaticity extractor rejects that empty region), and succeeds on every
valid 3-channel image with at least 2 rows; `extractCustomBlueSceneFeature`
likewise errors below 3 rows (the top third `rows/3` is empty) and
succeeds from 3 rows on. -/
theorem extractor_minimum_rows (img : Image) (bins : ℕ)
    (hsvOf : ℕ → ℕ → ℕ → ℕ × ℕ × ℕ) (grayOf : ℕ → ℕ → ℕ → ℕ) :
    (img.rows < 2 → extractMultiHistogram img bins = none) ∧
    (2 ≤ img.rows → img.cols ≠ 0 → img.channels = 3 →
      ∃ l, extractMultiHistogram img bins = some l ∧
        l.length = 2 * (bins * bins)) ∧
    (img.rows < 3 → extractCustomBlueSceneFeature hsvOf grayOf img = none) ∧
    (3 ≤ img.rows → img.cols ≠ 0 → img.channels = 3 →
      ∃ l, extractCustomBlueSceneFeature hsvOf grayOf img = some l ∧
        l.length = 209) := by
  refine ⟨?_, ?_, ?_, ?_⟩
  · intro hrows
    unfold extractMultiHistogram
    by_cases h1 : img.rows = 0 ∨ img.cols = 0
    · rw [if_pos h1]
    rw [if_neg h1]
    by_cases h2 : img.channels ≠ 3
    · rw [if_pos h2]
    rw [if_neg h2]
    dsimp only
    have hmid : img.rows / 2 = 0 := by omega
    rw [hmid]
    rw [(extractRGChromaticityHistogram_none_iff (subImage img 0 0) bins).mpr
      (Or.inl rfl)]
  · intro hrows hc hch
    unfold extractMultiHistogram
    rw [if_neg (by push_neg; omega), if_neg (by simp [hch])]
    dsimp only
    obtain ⟨t, ht, htlen⟩ := extractRGChromaticityHistogram_length
      (subImage img 0 (img.rows / 2)) bins (by show img.rows / 2 ≠ 0; omega)
      (by show img.cols ≠ 0; exact hc) hch
    obtain ⟨b, hb, hblen⟩ := extractRGChromaticityHistogram_length
      (subImage img (img.rows / 2) (img.rows - img.rows / 2)) bins
      (by show img.rows - img.rows / 2 ≠ 0; omega)
      (by show img.cols ≠ 0; exact hc) hch
    rw [ht, hb]
    refine ⟨t ++ b, rfl, ?_⟩
    rw [List.length_append, htlen, hblen]
    ring
  · intro hrows
    unfold extractCustomBlueSceneFeature
    by_cases h1 : img.rows = 0 ∨ img.cols = 0
    · rw [if_pos h1]
    rw [if_neg h1]
    by_cases h2 : img.channels ≠ 3
    · rw [if_pos h2]
    rw [if_neg h2]
    dsimp only
    have hreg : img.rows / 3 = 0 := by omega
    rw [hreg]
    rw [(extractRGChromaticityHistogram_none_iff (subImage img 0 0) 8).mpr
      (Or.inl rfl)]
  · intro hrows hc hch
    unfold extractCustomBlueSceneFeature
    rw [if_neg (by push_neg; omega), if_neg (by simp [hch])]
    dsimp only
    obtain ⟨t, ht, htlen⟩ := extractRGChromaticityHistogram_length
      (subImage img 0 (img.rows / 3)) 8 (by show img.rows / 3 ≠ 0; omega)
      (by show img.cols ≠ 0; exact hc) hch
    obtain ⟨m, hm, hmlen⟩ := extractRGChromaticityHistogram_length
      (subImage img (img.rows / 3) (img.rows / 3)) 8
      (by show img.rows / 3 ≠ 0; omega)
      (by show img.cols ≠ 0; exact hc) hch
    obtain ⟨b, hb, hblen⟩ := extractRGChromaticityHistogram_length
      (subImage img (2 * (img.rows / 3)) (img.rows - 2 * (img.rows / 3))) 8
      (by show img.rows - 2 * (img.rows / 3) ≠ 0; omega)
      (by show img.cols ≠ 0; exact hc) hch
    rw [ht, hm, hb]
    refine ⟨_, rfl, ?_⟩
    simp only [List.length_cons, List.length_append, htlen, hmlen, hblen,
      extractGradientMagnitudeHistogram_length]

/-- A 3-row all-black image for the C10 success parts. -/
def threeRowImage : Image := ⟨3, 1, 3, fun _ _ _ => 0⟩

/-- Witness for `extractor_minimum_rows`: on the 1×1 image both
band-splitting extractors error; on a 3-row image both succeed with the
documented lengths 128 and 209. -/
theorem extractor_minimum_rows_witness :
    extractMultiHistogram blackWitnessImage 8 = none ∧
    extractCustomBlueSceneFeature (fun _ _ _ => (0, 0, 0)) (fun _ _ _ => 0)
      blackWitnessImage = none ∧
    (extractMultiHistogram threeRowImage 8).map List.length = some 128 ∧
    (extractCustomBlueSceneFeature (fun _ _ _ => (0, 0, 0))
      (fun _ _ _ => 0) threeRowImage).map List.length = some 209 := by
  have h1 := extractor_minimum_rows blackWitnessImage 8
    (fun _ _ _ => (0, 0, 0)) (fun _ _ _ => 0)
  have h3 := extractor_minimum_rows threeRowImage 8
    (fun _ _ _ => (0, 0, 0)) (fun _ _ _ => 0)
  obtain ⟨l, hl, hlen⟩ := h3.2.1 (by decide) (by decide) rfl
  obtain ⟨l2, hl2, hlen2⟩ := h3.2.2.2 (by decide) (by decide) rfl
  refine ⟨h1.1 (by decide), h1.2.2.1 (by decide), ?_, ?_⟩
  · rw [hl, Option.map_some', hlen]
  · rw [hl2, Option.map_some', hlen2]

/-! ## Claim C4: the custom blue-scene distance -/

lemma distanceCosine_nonneg (sq : ℚ → ℚ) (f1 f2 : List ℚ)
    (hlen : f1.length = f2.length) (hne : f1 ≠ []) :
    0 ≤ distanceCosine sq f1 f2 := by
  unfold distanceCosine
  rw [if_neg (by simp [hlen]), if_neg hne]
  dsimp only
  split
  · norm_num
  · split
    · norm_num
    · split
      · norm_num
      · rename_i hgt
        rw [not_lt] at hgt
        linarith

lemma histSegment_replicate (k m h : ℕ) (x : ℚ) (hle : h * m + m ≤ k) :
    histSegment (List.replicate k x) m h = List.replicate m x := by
  rw [histSegment, List.drop_replicate, List.take_replicate]
  congr 1
  omega

lemma histInt_replicate_self (n : ℕ) (hn : n ≠ 0) :
    distanceHistogramIntersection (List.replicate n (0 : ℚ))
      (List.replicate n (0 : ℚ)) = 1 := by
  rw [distanceHistogramIntersection_self _
    (List.ne_nil_of_length_pos (by simp [Nat.pos_of_ne_zero hn]))]
  simp

lemma multiHist_replicate192 :
    distanceMultiHistogram (List.replicate 192 (0 : ℚ))
      (List.replicate 192 (0 : ℚ)) 3 [33/100, 34/100, 33/100] = some 1 := by
  have h := (multiHistogram_spec (List.replicate 192 (0 : ℚ))
    (List.replicate 192 (0 : ℚ)) 3 [33/100, 34/100, 33/100]).2.2
    (by simp) (List.ne_nil_of_length_pos (by simp)) rfl (by norm_num)
    (by rw [List.length_replicate]; norm_num) ?_
  · rw [h]
    have hseg : ∀ hh, hh < 3 →
        distanceHistogramIntersection
          (histSegment (List.replicate 192 (0 : ℚ))
            ((List.replicate 192 (0 : ℚ)).length / 3) hh)
          (histSegment (List.replicate 192 (0 : ℚ))
            ((List.replicate 192 (0 : ℚ)).length / 3) hh) = 1 := by
      intro hh hlt
      have h64 : (List.replicate 192 (0 : ℚ)).length / 3 = 64 := by simp
      rw [h64, histSegment_replicate 192 64 hh 0 (by omega)]
      exact histInt_replicate_self 64 (by norm_num)
    simp only [List.range_succ, List.range_zero, List.nil_append, List.cons_append,
      List.map_cons, List.map_nil, List.map_append]
    rw [hseg 0 (by omega), hseg 1 (by omega), hseg 2 (by omega)]
    norm_num
  · intro hh hlt
    have h64 : (List.replicate 192 (0 : ℚ)).length / 3 = 64 := by simp
    rw [h64, histSegment_replicate 192 64 hh 0 (by omega),
      histInt_replicate_self 64 (by norm_num)]
    norm_num

/-- Claim C4 (amended): `distanceCustomBlueScene` returns the `-1`
sentinel whenever a custom vector is not exactly 209 values or a DNN
vector is not exactly 512 values; and whenever the lengths are right and
the texture-slice and spatial-segment intersection distances are
nonnegative (as for normalised histogram slices), it returns
`0.4·|a[0]−b[0]| + 0.2·HistInt(a[1..16], b[1..16]) + 0.2·S + 0.2·Cosine(dnnA, dnnB)`
where `S` is the 3-segment `{0.33, 0.34, 0.33}`-weighted multi-histogram
distance of the `[17..208]` slices. -/
theorem customBlueScene_weighted_formula :
    (∀ (sq : ℚ → ℚ) (c1 c2 d1 d2 : List ℚ),
      (c1.length ≠ 209 ∨ c2.length ≠ 209 ∨ d1.length ≠ 512 ∨ d2.length ≠ 512) →
      distanceCustomBlueScene sq c1 c2 d1 d2 = some (-1)) ∧
    (∀ (sq : ℚ → ℚ) (c1 c2 d1 d2 : List ℚ),
      c1.length = 209 → c2.length = 209 → d1.length = 512 → d2.length = 512 →
      0 ≤ distanceHistogramIntersection ((c1.drop 1).take 16)
        ((c2.drop 1).take 16) →
      (∀ h, h < 3 → 0 ≤ distanceHistogramIntersection
        (histSegment (c1.drop 17) 64 h) (histSegment (c2.drop 17) 64 h)) →
      ∃ S, distanceMultiHistogram (c1.drop 17) (c2.drop 17) 3
          [33/100, 34/100, 33/100] = some S ∧
        distanceCustomBlueScene sq c1 c2 d1 d2 =
          some ((2/5) * |c1.getD 0 0 - c2.getD 0 0| +
            (1/5) * distanceHistogramIntersection ((c1.drop 1).take 16)
              ((c2.drop 1).take 16) +
            (1/5) * S + (1/5) * distanceCosine sq d1 d2)) := by
  constructor
  · intro sq c1 c2 d1 d2 hbad
    unfold distanceCustomBlueScene
    by_cases h1 : c1.length ≠ 209 ∨ c2.length ≠ 209
    · rw [if_pos h1]
    · rw [if_neg h1, if_pos (by tauto)]
  · intro sq c1 c2 d1 d2 hc1 hc2 hd1 hd2 htex hseg
    have hdl1 : (c1.drop 17).length = 192 := by rw [List.length_drop, hc1]
    have hdl2 : (c2.drop 17).length = 192 := by rw [List.length_drop, hc2]
    have hdiv : (c1.drop 17).length / 3 = 64 := by rw [hdl1]
    have hmulti := (multiHistogram_spec (c1.drop 17) (c2.drop 17) 3
      [33/100, 34/100, 33/100]).2.2 (by rw [hdl1, hdl2])
      (List.ne_nil_of_length_pos (by rw [hdl1]; norm_num)) rfl (by norm_num)
      (by rw [hdl1]; norm_num)
      (by intro h hh; rw [hdiv]; exact hseg h hh)
    rw [hdiv] at hmulti
    have hexp : (List.zipWith (fun wgt d => wgt * d)
        ([33/100, 34/100, 33/100] : List ℚ)
        ((List.range 3).map (fun h => distanceHistogramIntersection
          (histSegment (c1.drop 17) 64 h) (histSegment (c2.drop 17) 64 h)))).sum =
        (33/100) * distanceHistogramIntersection (histSegment (c1.drop 17) 64 0)
          (histSegment (c2.drop 17) 64 0) +
        (34/100) * distanceHistogramIntersection (histSegment (c1.drop 17) 64 1)
          (histSegment (c2.drop 17) 64 1) +
        (33/100) * distanceHistogramIntersection (histSegment (c1.drop 17) 64 2)
          (histSegment (c2.drop 17) 64 2) := by
      simp only [List.range_succ, List.range_zero, List.nil_append,
        List.cons_append, List.map_cons, List.map_nil, List.map_append,
        List.zipWith_cons_cons, List.zipWith_nil_right, List.sum_cons,
        List.sum_nil]
      ring
    have hS0 : 0 ≤ (List.zipWith (fun wgt d => wgt * d)
        ([33/100, 34/100, 33/100] : List ℚ)
        ((List.range 3).map (fun h => distanceHistogramIntersection
          (histSegment (c1.drop 17) 64 h) (histSegment (c2.drop 17) 64 h)))).sum := by
      rw [hexp]
      have h0 := hseg 0 (by omega)
      have h1 := hseg 1 (by omega)
      have h2 := hseg 2 (by omega)
      linarith
    have hcos : 0 ≤ distanceCosine sq d1 d2 :=
      distanceCosine_nonneg sq d1 d2 (by rw [hd1, hd2])
        (List.ne_nil_of_length_pos (by rw [hd1]; norm_num))
    refine ⟨_, hmulti, ?_⟩
    unfold distanceCustomBlueScene
    rw [if_neg (by push_neg; exact ⟨hc1, hc2⟩),
      if_neg (by push_neg; exact ⟨hd1, hd2⟩)]
    dsimp only
    rw [if_neg (not_lt.mpr htex), hmulti]
    dsimp only
    rw [if_neg (not_lt.mpr hS0), if_neg (not_lt.mpr hcos)]

/-- All-zero custom feature and a unit DNN embedding for the C4 witness. -/
def cexDnn : List ℚ := 1 :: List.replicate 511 0

/-- Witness for `customBlueScene_weighted_formula`: at two all-zero
209-vectors (texture and spatial slices are normalised-degenerate with
intersection distance 1 each) and equal unit DNN embeddings, the result
is `0.4·0 + 0.2·1 + 0.2·1 + 0.2·0 = 2/5`. -/
theorem customBlueScene_weighted_formula_witness :
    distanceCustomBlueScene (fun _ => 1) (List.replicate 209 (0 : ℚ))
      (List.replicate 209 (0 : ℚ)) cexDnn cexDnn = some (2/5) := by
  have hdrop : (List.replicate 209 (0 : ℚ)).drop 17 = List.replicate 192 0 := by
    rw [List.drop_replicate]
  have hslice : ((List.replicate 209 (0 : ℚ)).drop 1).take 16 =
      List.replicate 16 0 := by
    rw [List.drop_replicate, List.take_replicate]
    have h1 : (16 : ℕ) ⊓ (209 - 1) = 16 := by omega
    rw [h1]
  have h := customBlueScene_weighted_formula.2 (fun _ => 1)
    (List.replicate 209 0) (List.replicate 209 0) cexDnn cexDnn
    (by simp) (by simp) (by simp [cexDnn]) (by simp [cexDnn])
    (by rw [hslice, histInt_replicate_self 16 (by norm_num)]; norm_num)
    (by intro hh hlt
        rw [hdrop, histSegment_replicate 192 64 hh 0 (by omega),
          histInt_replicate_self 64 (by norm_num)]
        norm_num)
  obtain ⟨S, hmS, hres⟩ := h
  rw [hdrop] at hmS
  rw [multiHist_replicate192] at hmS
  have hS1 : S = 1 := (Option.some.inj hmS).symm
  rw [hres, hS1, hslice, histInt_replicate_self 16 (by norm_num)]
  have hgetD : (List.replicate 209 (0 : ℚ)).getD 0 0 = 0 := by
    simp
  have hcos0 : distanceCosine (fun _ => 1) cexDnn cexDnn = 0 := by
    have hsum : ((cexDnn.map (fun a => a * a)).sum : ℚ) = 1 := by
      simp [cexDnn, List.map_replicate, List.sum_replicate]
    exact distanceCosine_self cexDnn (fun _ => 1)
      (by simp [cexDnn]) (by norm_num) (by rw [hsum]; norm_num)
  rw [hgetD, hcos0]
  norm_num

/-- The custom-feature counterexample vector: value 2 in the first
texture-slice position, all other 208 entries 0. -/
def cexCustom : List ℚ := 0 :: 2 :: List.replicate 207 0

/-- Claim C4 counterexample (for the claim as stated): at
`a = b = cexCustom` (valid 209-length vectors) the texture slice gives
intersection distance `1 − 2 = −1 < 0`, so the code returns the `-1`
sentinel, while the claimed weighted formula evaluates to 0. -/
theorem customBlueScene_formula_counterexample :
    distanceCustomBlueScene (fun _ => 1) cexCustom cexCustom cexDnn cexDnn =
      some (-1) ∧
    distanceMultiHistogram (cexCustom.drop 17) (cexCustom.drop 17) 3
      [33/100, 34/100, 33/100] = some 1 ∧
    (2/5) * |cexCustom.getD 0 0 - cexCustom.getD 0 0| +
      (1/5) * distanceHistogramIntersection ((cexCustom.drop 1).take 16)
        ((cexCustom.drop 1).take 16) +
      (1/5) * 1 + (1/5) * distanceCosine (fun _ => 1) cexDnn cexDnn = 0 ∧
    some (-1 : ℚ) ≠ some (0 : ℚ) := by
  have hslice : ((cexCustom.drop 1).take 16) = 2 :: List.replicate 15 (0 : ℚ) := by
    show ((0 :: 2 :: List.replicate 207 (0:ℚ)).drop 1).take 16 = _
    rw [List.drop_one, List.tail_cons, List.take_succ_cons, List.take_replicate]
    have h1 : (15 : ℕ) ⊓ 207 = 15 := by omega
    rw [h1]
  have htexv : distanceHistogramIntersection ((cexCustom.drop 1).take 16)
      ((cexCustom.drop 1).take 16) = -1 := by
    rw [hslice, distanceHistogramIntersection_self _ (by simp)]
    rw [List.sum_cons, List.sum_replicate]
    norm_num
  have hdrop : cexCustom.drop 17 = List.replicate 192 (0 : ℚ) := by
    show (0 :: 2 :: List.replicate 207 (0:ℚ)).drop 17 = _
    rw [List.drop_succ_cons, List.drop_succ_cons, List.drop_replicate]
  have hcos0 : distanceCosine (fun _ => 1) cexDnn cexDnn = 0 := by
    have hsum : ((cexDnn.map (fun a => a * a)).sum : ℚ) = 1 := by
      simp [cexDnn, List.map_replicate, List.sum_replicate]
    exact distanceCosine_self cexDnn (fun _ => 1)
      (by simp [cexDnn]) (by norm_num) (by rw [hsum]; norm_num)
  refine ⟨?_, ?_, ?_, by simp⟩
  · unfold distanceCustomBlueScene
    rw [if_neg (by push_neg; constructor <;> simp [cexCustom]),
      if_neg (by push_neg; constructor <;> simp [cexDnn])]
    dsimp only
    rw [if_pos (by rw [htexv]; norm_num)]
  · rw [hdrop]
    exact multiHist_replicate192
  · rw [htexv, hcos0]
    have hgetD : cexCustom.getD 0 0 = 0 := by
      simp [cexCustom]
    rw [hgetD]
    norm_num
